import Mathlib

/-
Verification of the Pomodoro++ timer/session engine and statistics layer.

The definitions below are a shallow embedding of the Rust sources:
  - the timer/session engine comes from src/app.rs (App, toggle_timer,
    reset_timer, tick, complete_session, adjust_work_duration,
    adjust_break_duration);
  - the statistics queries come from src/db.rs (get_weekly_stats,
    get_monthly_stats), with the SQL grouping/ordering/limit semantics
    spelled out as explicit list operations and SQLite's binary TEXT
    collation modelled by a character-wise comparison;
  - the heatmap intensity computation comes from src/ui/heatmap.rs
    (max_minutes and get_intensity_char), with the f64 ratio comparisons
    against the dyadic constants 0.25 / 0.5 / 0.75 modelled by the
    equivalent exact integer comparisons.

External effects are made explicit: wall-clock timestamps are passed in as
parameters (`now`), and the SQLite append performed by save_session is
modelled by a `dbOk` flag saying whether the INSERT succeeds; the Rust code
discards that result (`let _ = self.db.save_session(...)`).
-/

namespace PomodoroPlusPlus

/-- Mode enum from src/app.rs. -/
inductive PomodoroMode where
| Work
| Break
deriving DecidableEq, Repr

/-- The counterpart mode, as computed inline by the `match` in `complete_session`. -/
def PomodoroMode.switch : PomodoroMode → PomodoroMode
| PomodoroMode.Work => PomodoroMode.Break
| PomodoroMode.Break => PomodoroMode.Work

/-- A row appended to the sessions table by `Database::save_session` (src/db.rs).
Timestamps are modelled as natural numbers. -/
structure SessionRecord where
  start_time : Nat
  end_time : Nat
  duration : Int
  tag : String
  session_type : String
deriving DecidableEq, Repr

/-- The engine-relevant fields of `App` (src/app.rs), plus the list of rows the
database holds (`db_sessions`), so that persistence effects are observable.
Screen/input fields are rendering state and are not part of the engine. -/
structure App where
  timer_running : Bool
  mode : PomodoroMode
  remaining_seconds : Nat
  selected_tag_index : Nat
  tags : List String
  work_duration : Nat
  break_duration : Nat
  session_start : Option Nat
  db_sessions : List SessionRecord
deriving DecidableEq, Repr

/-- App::new (src/app.rs): the parsed config durations and the stored tag list
are passed in as parameters; the timer starts stopped in Work mode with the
full work duration on the clock and no open session. -/
def App.new (work_duration break_duration : Nat) (tags : List String) : App where
  timer_running := false
  mode := PomodoroMode.Work
  remaining_seconds := work_duration
  selected_tag_index := 0
  tags := tags
  work_duration := work_duration
  break_duration := break_duration
  session_start := none
  db_sessions := []

/-- App::selected_tag: `self.tags.get(self.selected_tag_index)`. -/
def App.selected_tag (s : App) : Option String :=
  s.tags.get? s.selected_tag_index

/-- The `match self.mode { Work => self.work_duration, Break => self.break_duration }`
pattern that appears in reset_timer and complete_session. -/
def App.config_duration (s : App) (m : PomodoroMode) : Nat :=
  match m with
  | PomodoroMode.Work => s.work_duration
  | PomodoroMode.Break => s.break_duration

/-- App::toggle_timer: pause if running; otherwise start, stamping
`session_start = now` only when no session is currently open. -/
def App.toggle_timer (now : Nat) (s : App) : App :=
  if s.timer_running then
    { s with timer_running := false }
  else
    { s with timer_running := true,
             session_start := match s.session_start with
               | none => some now
               | some t => some t }

/-- App::reset_timer: stop, clear the open session, reload the full duration of
the current mode. No database write happens here. -/
def App.reset_timer (s : App) : App :=
  { s with timer_running := false,
           session_start := none,
           remaining_seconds := s.config_duration s.mode }

/-- Database::save_session modelled at the list level: the INSERT appends a row
when it succeeds (`dbOk = true`) and leaves the table unchanged when it fails. -/
def save_session (dbOk : Bool) (db : List SessionRecord) (record : SessionRecord) :
    List SessionRecord :=
  if dbOk then db ++ [record] else db

/-- App::complete_session: if a session is open, build the record (recorded
duration is the configured duration of the still-current mode, not elapsed
wall time) and hand it to save_session, whose result is discarded; then flip
the mode, reload the new mode's configured duration, stop the timer, and clear
`session_start` (the Rust code clears it via `Option::take`). The second
component is the record handed to the database, if any. -/
def App.complete_session (dbOk : Bool) (now : Nat) (s : App) : App × Option SessionRecord :=
  let persisted : List SessionRecord × Option SessionRecord :=
    match s.session_start with
    | some start =>
      let record : SessionRecord :=
        { start_time := start
          end_time := now
          duration := (s.config_duration s.mode : Int)
          tag := (s.selected_tag).getD ("Work")
          session_type := match s.mode with
            | PomodoroMode.Work => "work"
            | PomodoroMode.Break => "break" }
      (save_session dbOk s.db_sessions record, some record)
    | none => (s.db_sessions, none)
  let new_mode := s.mode.switch
  ({ s with mode := new_mode,
            remaining_seconds := s.config_duration new_mode,
            timer_running := false,
            session_start := none,
            db_sessions := persisted.1 },
   persisted.2)

/-- App::tick: only acts when running with time left; decrements by one second
and, upon reaching zero, completes the session synchronously within the tick. -/
def App.tick (dbOk : Bool) (now : Nat) (s : App) : App × Option SessionRecord :=
  if s.timer_running = true ∧ 0 < s.remaining_seconds then
    let s1 := { s with remaining_seconds := s.remaining_seconds - 1 }
    if s1.remaining_seconds = 0 then s1.complete_session dbOk now
    else (s1, none)
  else (s, none)

/-- App::adjust_work_duration: clamp `work_duration + delta` to [60, 7200]
(via `.max(60).min(7200)`), store it, and resize the countdown only when idle
in Work mode. The `set_config` write is a config-table effect with no bearing
on the engine state and is not tracked here. -/
def App.adjust_work_duration (delta : Int) (s : App) : App :=
  let new_val : Nat := (min (max ((s.work_duration : Int) + delta) 60) 7200).toNat
  let s1 := { s with work_duration := new_val }
  if s1.mode = PomodoroMode.Work ∧ s1.timer_running = false then
    { s1 with remaining_seconds := new_val }
  else s1

/-- App::adjust_break_duration: clamp `break_duration + delta` to [60, 3600],
store it, and resize the countdown only when idle in Break mode. -/
def App.adjust_break_duration (delta : Int) (s : App) : App :=
  let new_val : Nat := (min (max ((s.break_duration : Int) + delta) 60) 3600).toNat
  let s1 := { s with break_duration := new_val }
  if s1.mode = PomodoroMode.Break ∧ s1.timer_running = false then
    { s1 with remaining_seconds := new_val }
  else s1

/-- States the engine can reach from App::new through its public operations. -/
inductive Reachable : App → Prop where
| init (work_duration break_duration : Nat) (tags : List String) :
    Reachable (App.new work_duration break_duration tags)
| toggle {s : App} (now : Nat) : Reachable s → Reachable (s.toggle_timer now)
| reset {s : App} : Reachable s → Reachable s.reset_timer
| tick {s : App} (dbOk : Bool) (now : Nat) : Reachable s → Reachable (s.tick dbOk now).1
| adjust_work {s : App} (delta : Int) : Reachable s → Reachable (s.adjust_work_duration delta)
| adjust_break {s : App} (delta : Int) : Reachable s → Reachable (s.adjust_break_duration delta)

/-- The fields of the in-memory engine state, i.e. everything except the
database contents. Used to state that a transition is independent of
persistence success. -/
def App.engine_view (s : App) :
    Bool × PomodoroMode × Nat × Nat × List String × Nat × Nat × Option Nat :=
  (s.timer_running, s.mode, s.remaining_seconds, s.selected_tag_index, s.tags,
   s.work_duration, s.break_duration, s.session_start)

/-- The bound the spec asserts on the countdown (spec section 3):
`remaining_seconds` never exceeds the configured duration of the current mode. -/
def remaining_bound_inv (s : App) : Prop :=
  s.remaining_seconds ≤ s.config_duration s.mode

/- ## Statistics layer, from src/db.rs -/

/-- A stored sessions-table row as read back by the statistics queries:
timestamps are the TEXT columns written by save_session
(format `YYYY-MM-DD HH:MM:SS`). -/
structure Session where
  start_time : String
  end_time : String
  duration : Int
  tag : String
  session_type : String
deriving DecidableEq, Repr

/-- SQLite binary-collation comparison of TEXT values, character-wise
(for the ASCII timestamps stored here, byte order and character order agree). -/
def charListLe : List Char → List Char → Bool
| [], _ => true
| _ :: _, [] => false
| a :: as, b :: bs => if a < b then true else if a = b then charListLe as bs else false

/-- TEXT `<=` under SQLite's binary collation. -/
def strLeb (a b : String) : Bool := charListLe a.data b.data

/-- `DATE(start_time)`: the first 10 characters `YYYY-MM-DD` of the timestamp. -/
def day_of (r : Session) : String := r.start_time.take 10

/-- `STRFTIME('%Y-%m', start_time)`: the first 7 characters `YYYY-MM`. -/
def month_of (r : Session) : String := r.start_time.take 7

/-- The `type = 'work'` condition. -/
def is_work (r : Session) : Bool := r.session_type == "work"

/-- `SUM(duration)` over a group of rows. -/
def sum_durations (rows : List Session) : Int :=
  (rows.map (fun r => r.duration)).sum

/-- `GROUP BY key ... ORDER BY key` (ascending): one `(key, SUM(duration))`
pair per distinct key, in ascending binary-collation order. -/
def group_sorted_asc (key : Session → String) (rows : List Session) :
    List (String × Int) :=
  (((rows.map key).dedup).insertionSort (fun a b => strLeb a b = true)).map
    (fun k => (k, sum_durations (rows.filter (fun r => key r == k))))

/-- `GROUP BY key ... ORDER BY key DESC`. -/
def group_sorted_desc (key : Session → String) (rows : List Session) :
    List (String × Int) :=
  (((rows.map key).dedup).insertionSort (fun a b => strLeb b a = true)).map
    (fun k => (k, sum_durations (rows.filter (fun r => key r == k))))

/-- The WHERE clause of get_weekly_stats: optional tag equality, `type = 'work'`,
and `start_time >= DATE('now', '-7 days')`; the 7-days-ago cutoff date computed
by SQLite is passed in as the `cutoff` parameter (TEXT comparison). -/
def weekly_filter (tag : Option String) (cutoff : String) (rows : List Session) :
    List Session :=
  match tag with
  | some t => rows.filter
      (fun r => r.tag == t && (is_work r && strLeb cutoff r.start_time))
  | none => rows.filter (fun r => is_work r && strLeb cutoff r.start_time)

/-- The WHERE clause of get_monthly_stats: optional tag equality and
`type = 'work'`; no time window. -/
def monthly_filter (tag : Option String) (rows : List Session) : List Session :=
  match tag with
  | some t => rows.filter (fun r => r.tag == t && is_work r)
  | none => rows.filter (fun r => is_work r)

/-- Database::get_weekly_stats: rows matching the filter, grouped by calendar
day, summed, ascending by day. -/
def get_weekly_stats (tag : Option String) (cutoff : String) (rows : List Session) :
    List (String × Int) :=
  group_sorted_asc day_of (weekly_filter tag cutoff rows)

/-- Database::get_monthly_stats: work rows matching the tag filter, grouped by
calendar year-month, summed, descending by month, `LIMIT 12`. -/
def get_monthly_stats (tag : Option String) (rows : List Session) :
    List (String × Int) :=
  (group_sorted_desc month_of (monthly_filter tag rows)).take 12

/-- The distinct year-months among the rows that pass the monthly filter. -/
def months_present (tag : Option String) (rows : List Session) : List String :=
  ((monthly_filter tag rows).map month_of).dedup

/-- The total duration of matching work sessions in one calendar year-month. -/
def monthly_month_total (tag : Option String) (m : String) (rows : List Session) : Int :=
  sum_durations ((monthly_filter tag rows).filter (fun r => month_of r == m))

/- ## Heatmap layer, from src/ui/heatmap.rs -/

/-- The four visual intensity levels plus the zero level, named after the
spec's tiers; render_heatmap_grid draws one glyph per tier (the high and max
tiers of the spec share a glyph but differ in color). -/
inductive IntensityTier where
| none
| low
| medium
| high
| max
deriving DecidableEq, Repr

/-- The `max_minutes` computation in render_heatmap_grid:
`data_map.values().map(|v| *v / 60).max().unwrap_or(60).max(1)` over the
per-day total seconds returned by get_heatmap_data. Rust's i64 division
truncates toward zero, which is `Int.tdiv`. -/
def heatmap_max_minutes (totals : List Int) : Int :=
  max (((totals.map (fun v => Int.tdiv v 60)).max?).getD 60) 1

/-- Following the spec's words, for comparison with heatmap_max_minutes:
`max_minutes = max(1, max over all days in window of minutes)`, where a day
absent from the data contributes 0 minutes. -/
def spec_max_minutes (totals : List Int) : Int :=
  max 1 ((totals.map (fun v => Int.tdiv v 60)).foldr max 0)

/-- get_intensity_char, with its f64 comparisons `ratio < 0.25`, `ratio < 0.5`,
`ratio < 0.75` (where `ratio = minutes / max_minutes`) expressed as the exact
equivalent integer comparisons; 0.25, 0.5 and 0.75 are exactly representable
and the stored magnitudes keep the f64 division on the same side of each
breakpoint as the exact rational. -/
def get_intensity_char (minutes max_minutes : Int) : IntensityTier :=
  if minutes = 0 then IntensityTier.none
  else if 4 * minutes < max_minutes then IntensityTier.low
  else if 2 * minutes < max_minutes then IntensityTier.medium
  else if 4 * minutes < 3 * max_minutes then IntensityTier.high
  else IntensityTier.max

/- ## Helper lemmas -/

theorem charListLe_total : ∀ a b, charListLe a b = true ∨ charListLe b a = true := by
  intro a
  induction a with
  | nil => intro b; left; rfl
  | cons x xs ih =>
    intro b
    cases b with
    | nil => right; rfl
    | cons y ys =>
      by_cases hxy : x < y
      · left; simp [charListLe, hxy]
      · by_cases heq : x = y
        · subst heq
          rcases ih ys with h | h
          · left; simp [charListLe, h]
          · right; simp [charListLe, h]
        · right
          have hyx : y < x := by
            rcases lt_trichotomy x y with h | h | h
            · exact absurd h hxy
            · exact absurd h heq
            · exact h
          simp [charListLe, hyx]

theorem charListLe_trans : ∀ a b c, charListLe a b = true → charListLe b c = true →
    charListLe a c = true := by
  intro a
  induction a with
  | nil => intro b c _ _; rfl
  | cons x xs ih =>
    intro b c hab hbc
    cases b with
    | nil => simp [charListLe] at hab
    | cons y ys =>
      cases c with
      | nil => simp [charListLe] at hbc
      | cons z zs =>
        simp only [charListLe] at hab hbc ⊢
        by_cases hxy : x < y
        · by_cases hyz : y < z
          · simp [lt_trans hxy hyz]
          · by_cases hyz2 : y = z
            · subst hyz2; simp [hxy]
            · simp [hyz, hyz2] at hbc
        · by_cases hxy2 : x = y
          · subst hxy2
            by_cases hyz : x < z
            · simp [hyz]
            · by_cases hyz2 : x = z
              · subst hyz2
                simp [hxy] at hab hbc ⊢
                exact ih ys zs hab hbc
              · simp [hyz, hyz2] at hbc
          · simp [hxy, hxy2] at hab

theorem strLeb_total (a b : String) : strLeb a b = true ∨ strLeb b a = true :=
  charListLe_total a.data b.data

theorem strLeb_trans (a b c : String) : strLeb a b = true → strLeb b c = true →
    strLeb a c = true :=
  charListLe_trans a.data b.data c.data

theorem filter_of_implied (p q : Session → Bool) (h : ∀ r, p r = true → q r = true)
    (rows : List Session) : (rows.filter q).filter p = rows.filter p := by
  rw [List.filter_filter]
  apply List.filter_congr
  intro a _
  cases hp : p a
  · simp
  · simp [h a hp]

theorem weekly_filter_work_only (tag : Option String) (cutoff : String)
    (rows : List Session) :
    weekly_filter tag cutoff (rows.filter is_work) = weekly_filter tag cutoff rows := by
  cases tag with
  | none =>
    exact filter_of_implied _ is_work
      (fun r hr => by
        simp only [Bool.and_eq_true] at hr
        exact hr.1) rows
  | some t =>
    exact filter_of_implied _ is_work
      (fun r hr => by
        simp only [Bool.and_eq_true] at hr
        exact hr.2.1) rows

theorem monthly_filter_work_only (tag : Option String) (rows : List Session) :
    monthly_filter tag (rows.filter is_work) = monthly_filter tag rows := by
  cases tag with
  | none =>
    exact filter_of_implied _ is_work (fun r hr => hr) rows
  | some t =>
    exact filter_of_implied _ is_work
      (fun r hr => by
        simp only [Bool.and_eq_true] at hr
        exact hr.2) rows

/- ## Claim theorems -/

/-- C1: a running engine with `remaining_seconds = 1` and an open session
completes synchronously on a single tick: the record handed to the database
carries the configured duration of the mode that was active (not elapsed wall
time), the mode flips, `remaining_seconds` becomes the new mode's configured
duration, the timer stops, and `session_start` is cleared. (By C10's invariant,
`session_start` is open in every reachable running state.) -/
theorem tick_at_one_completes (dbOk : Bool) (now t : Nat) (s : App)
    (hrun : s.timer_running = true) (hrem : s.remaining_seconds = 1)
    (hstart : s.session_start = some t) :
    (s.tick dbOk now).2 = some
      { start_time := t
        end_time := now
        duration := (s.config_duration s.mode : Int)
        tag := (s.selected_tag).getD ("Work")
        session_type := match s.mode with
          | PomodoroMode.Work => "work"
          | PomodoroMode.Break => "break" } ∧
    (s.tick dbOk now).1.mode = s.mode.switch ∧
    (s.tick dbOk now).1.remaining_seconds = s.config_duration s.mode.switch ∧
    (s.tick dbOk now).1.timer_running = false ∧
    (s.tick dbOk now).1.session_start = none := by
  have h1 : s.tick dbOk now = ({ s with remaining_seconds := 0 }).complete_session dbOk now := by
    simp [App.tick, hrun, hrem]
  rw [h1]
  simp [App.complete_session, hstart, App.config_duration, App.selected_tag]

/-- Witness for C1 at a concrete running state one second from completion. -/
theorem tick_at_one_completes_witness :
    ((({ App.new 1500 300 ([]) with
          timer_running := true
          remaining_seconds := 1
          session_start := some 5 } : App).tick true 9).1.timer_running = false) :=
  (tick_at_one_completes true 9 5
    { App.new 1500 300 ([]) with
      timer_running := true
      remaining_seconds := 1
      session_start := some 5 } rfl rfl rfl).2.2.2.1

/-- C2: ticking a paused engine, or one already at zero, is a complete no-op:
the state (database included) is unchanged, no record is handed to the
database, and repeating the tick any number of times changes nothing. -/
theorem tick_idle_noop (dbOk : Bool) (now : Nat) (s : App)
    (h : s.timer_running = false ∨ s.remaining_seconds = 0) :
    s.tick dbOk now = (s, Option.none) ∧
    ∀ n : Nat, (fun st => (App.tick dbOk now st).1)^[n] s = s := by
  have h0 : s.tick dbOk now = (s, Option.none) := by
    rcases h with h | h
    · simp [App.tick, h]
    · simp [App.tick, h]
  refine ⟨h0, ?_⟩
  intro n
  induction n with
  | zero => rfl
  | succ k ih =>
    rw [Function.iterate_succ_apply]
    simp only [h0]
    exact ih

/-- Witness for C2 at the freshly created (paused) engine. -/
theorem tick_idle_noop_witness :
    (App.new 1500 300 ([])).tick true 7 = (App.new 1500 300 ([]), Option.none) :=
  (tick_idle_noop true 7 (App.new 1500 300 ([])) (Or.inl rfl)).1

/-- C3: reset stops the timer, clears the open session, reloads the full
configured duration of the current mode, and never touches the session log,
no matter how much of the session had elapsed. -/
theorem reset_never_records (s : App) :
    s.reset_timer = { s with
      timer_running := false
      session_start := none
      remaining_seconds := s.config_duration s.mode } ∧
    s.reset_timer.db_sessions = s.db_sessions :=
  ⟨rfl, rfl⟩

/-- C4: when completion fires, the in-memory transition and the record handed
to the database are identical whether the append succeeds or fails; the
failure is swallowed (the model returns no error channel, mirroring
`let _ = self.db.save_session(...)`). -/
theorem completion_ignores_persistence_failure (now : Nat) (s : App)
    (hrun : s.timer_running = true) (hrem : s.remaining_seconds = 1) :
    App.engine_view (s.tick true now).1 = App.engine_view (s.tick false now).1 ∧
    (s.tick true now).2 = (s.tick false now).2 := by
  cases hss : s.session_start <;>
    simp [App.tick, hrun, hrem, App.complete_session, hss, App.engine_view, save_session]

/-- Witness for C4 at a concrete completing state. -/
theorem completion_ignores_persistence_failure_witness :
    App.engine_view ((({ App.new 1500 300 ([]) with
        timer_running := true
        remaining_seconds := 1
        session_start := some 5 } : App).tick true 9).1) =
    App.engine_view ((({ App.new 1500 300 ([]) with
        timer_running := true
        remaining_seconds := 1
        session_start := some 5 } : App).tick false 9).1) :=
  (completion_ignores_persistence_failure 9
    { App.new 1500 300 ([]) with
      timer_running := true
      remaining_seconds := 1
      session_start := some 5 } rfl rfl).1

/-- C5 counterexample: the bound `remaining_seconds ≤ configured duration of
the current mode` is not preserved by every operation. From the initial state,
start the timer and then shrink the work duration while running in Work mode:
the countdown (1500) now exceeds the new configured duration (60). -/
theorem remaining_bound_not_preserved :
    Reachable (((App.new 1500 300 ([])).toggle_timer 0).adjust_work_duration (-1440)) ∧
    remaining_bound_inv ((App.new 1500 300 ([])).toggle_timer 0) ∧
    ¬ remaining_bound_inv (((App.new 1500 300 ([])).toggle_timer 0).adjust_work_duration (-1440)) :=
  ⟨Reachable.adjust_work (-1440) (Reachable.toggle 0 (Reachable.init 1500 300 ([]))),
   by unfold remaining_bound_inv; decide,
   by unfold remaining_bound_inv; decide⟩

/-- C5 corrected: the bound `remaining_seconds ≤ configured duration of the
current mode` holds in the initial state and is preserved by toggle, reset and
tick; a duration adjustment also preserves it except when it adjusts the
duration of the currently active mode while the timer is running — in that
case the countdown can exceed the new (smaller) duration until the next reset
or completion. -/
theorem remaining_bound_amended :
    (∀ (wd bd : Nat) (tags : List String), remaining_bound_inv (App.new wd bd tags)) ∧
    (∀ (s : App) (now : Nat), remaining_bound_inv s →
       remaining_bound_inv (s.toggle_timer now)) ∧
    (∀ s : App, remaining_bound_inv s.reset_timer) ∧
    (∀ (s : App) (dbOk : Bool) (now : Nat), remaining_bound_inv s →
       remaining_bound_inv (s.tick dbOk now).1) ∧
    (∀ (s : App) (delta : Int), ¬ (s.mode = PomodoroMode.Work ∧ s.timer_running = true) →
       remaining_bound_inv s → remaining_bound_inv (s.adjust_work_duration delta)) ∧
    (∀ (s : App) (delta : Int), ¬ (s.mode = PomodoroMode.Break ∧ s.timer_running = true) →
       remaining_bound_inv s → remaining_bound_inv (s.adjust_break_duration delta)) := by
  refine ⟨?_, ?_, ?_, ?_, ?_, ?_⟩
  · intro wd bd tags
    simp [remaining_bound_inv, App.new, App.config_duration]
  · intro s now h
    obtain ⟨run, mode, rem, sti, tags, wd, bd, ss, db⟩ := s
    cases run <;> cases ss <;>
      simp_all [App.toggle_timer, remaining_bound_inv, App.config_duration]
  · intro s
    obtain ⟨run, mode, rem, sti, tags, wd, bd, ss, db⟩ := s
    cases mode <;> simp [App.reset_timer, remaining_bound_inv, App.config_duration]
  · intro s dbOk now h
    obtain ⟨run, mode, rem, sti, tags, wd, bd, ss, db⟩ := s
    cases run
    · simpa [App.tick, remaining_bound_inv, App.config_duration] using h
    · by_cases hz : rem = 0
      · subst hz
        simp [App.tick, remaining_bound_inv, App.config_duration]
      · by_cases h1 : rem = 1
        · subst h1
          cases ss <;> cases mode <;>
            simp [App.tick, App.complete_session, remaining_bound_inv,
                  App.config_duration, PomodoroMode.switch]
        · have h2 : ¬ (rem - 1 = 0) := by omega
          cases mode <;>
          · simp only [remaining_bound_inv, App.config_duration] at h
            simp [App.tick, Nat.pos_of_ne_zero hz, h2, remaining_bound_inv,
                  App.config_duration]
            omega
  · intro s delta hside h
    obtain ⟨run, mode, rem, sti, tags, wd, bd, ss, db⟩ := s
    cases mode
    · cases run
      · simp [App.adjust_work_duration, remaining_bound_inv, App.config_duration]
      · exact absurd ⟨rfl, rfl⟩ hside
    · simpa [App.adjust_work_duration, remaining_bound_inv, App.config_duration] using h
  · intro s delta hside h
    obtain ⟨run, mode, rem, sti, tags, wd, bd, ss, db⟩ := s
    cases mode
    · simpa [App.adjust_break_duration, remaining_bound_inv, App.config_duration] using h
    · cases run
      · simp [App.adjust_break_duration, remaining_bound_inv, App.config_duration]
      · exact absurd ⟨rfl, rfl⟩ hside

/-- Witness for the corrected C5: adjusting the work duration while idle
in Work mode re-establishes the bound at the concrete initial state. -/
theorem remaining_bound_amended_witness :
    remaining_bound_inv ((App.new 1500 300 ([])).adjust_work_duration (-1440)) :=
  remaining_bound_amended.2.2.2.2.1 (App.new 1500 300 ([])) (-1440)
    (by simp [App.new]) (remaining_bound_amended.1 1500 300 ([]))

/-- C7: both aggregations sum only `session_type = 'work'` rows — removing all
non-work rows changes neither query result, so a break row never contributes
to any bucket; concretely, one 1500 s work row and one 300 s break row on the
same day yield a weekly total of 1500 for that day, not 1800. -/
theorem stats_exclude_breaks :
    (∀ (tag : Option String) (cutoff : String) (rows : List Session),
       get_weekly_stats tag cutoff (rows.filter is_work) = get_weekly_stats tag cutoff rows ∧
       get_monthly_stats tag (rows.filter is_work) = get_monthly_stats tag rows) ∧
    get_weekly_stats (Option.none) ("2026-10-05")
      ([{ start_time := "2026-10-10 09:00:00"
          end_time := "2026-10-10 09:25:00"
          duration := 1500
          tag := "Work"
          session_type := "work" },
        { start_time := "2026-10-10 10:00:00"
          end_time := "2026-10-10 10:05:00"
          duration := 300
          tag := "Work"
          session_type := "break" }]) = [(("2026-10-10"), 1500)] := by
  constructor
  · intro tag cutoff rows
    constructor
    · unfold get_weekly_stats
      rw [weekly_filter_work_only]
    · unfold get_monthly_stats
      rw [monthly_filter_work_only]
  · decide

/-- C8: the monthly aggregation returns exactly one bucket per calendar
year-month with data (capped), each bucket's total being the sum over the
matching work rows of that month with no time-window restriction; the list is
strictly descending by year-month and its length is the number of distinct
months with data, capped at 12. -/
theorem monthly_sorted_and_capped :
    ∀ (tag : Option String) (rows : List Session),
      (get_monthly_stats tag rows).length = min 12 (months_present tag rows).length ∧
      (get_monthly_stats tag rows).Pairwise
        (fun p q => strLeb q.1 p.1 = true ∧ q.1 ≠ p.1) ∧
      ∀ p ∈ get_monthly_stats tag rows,
        p.2 = monthly_month_total tag p.1 rows ∧ p.1 ∈ months_present tag rows := by
  intro tag rows
  haveI : IsTotal String (fun a b : String => strLeb b a = true) :=
    ⟨fun a b => strLeb_total b a⟩
  haveI : IsTrans String (fun a b : String => strLeb b a = true) :=
    ⟨fun a b c hab hbc => strLeb_trans c b a hbc hab⟩
  have hnd : (months_present tag rows).Nodup := List.nodup_dedup _
  have hnd2 : ((months_present tag rows).insertionSort
      (fun a b : String => strLeb b a = true)).Nodup :=
    ((List.perm_insertionSort _ _).nodup_iff).mpr hnd
  have hsorted : List.Sorted (fun a b : String => strLeb b a = true)
      ((months_present tag rows).insertionSort (fun a b : String => strLeb b a = true)) :=
    List.sorted_insertionSort _ _
  refine ⟨?_, ?_, ?_⟩
  · simp [get_monthly_stats, group_sorted_desc, months_present,
          List.length_take, List.length_insertionSort]
  · have hpair : ((months_present tag rows).insertionSort
        (fun a b : String => strLeb b a = true)).Pairwise
        (fun a b => (strLeb b a = true ∧ a ≠ b)) := hsorted.and hnd2
    have hmap : (((months_present tag rows).insertionSort
        (fun a b : String => strLeb b a = true)).map
          (fun k => (k, sum_durations ((monthly_filter tag rows).filter
            (fun r => month_of r == k))))).Pairwise
        (fun p q : String × Int => strLeb q.1 p.1 = true ∧ q.1 ≠ p.1) :=
      List.pairwise_map.mpr (hpair.imp (fun hab => ⟨hab.1, hab.2.symm⟩))
    exact (hmap.sublist (List.take_sublist 12 _))
  · intro p hp
    have hp2 : p ∈ ((months_present tag rows).insertionSort
        (fun a b : String => strLeb b a = true)).map
          (fun k => (k, sum_durations ((monthly_filter tag rows).filter
            (fun r => month_of r == k)))) := List.mem_of_mem_take hp
    obtain ⟨k, hk, rfl⟩ := List.mem_map.mp hp2
    exact ⟨rfl, (List.mem_insertionSort _).mp hk⟩

/-- Witness for C8 on a concrete one-row table: the single bucket's total is
the month total of that month. -/
theorem monthly_sorted_and_capped_witness :
    ((("2026-10"), (1500 : Int)).2 = monthly_month_total (Option.none) ("2026-10")
      ([{ start_time := "2026-10-10 09:00:00"
          end_time := "2026-10-10 09:25:00"
          duration := 1500
          tag := "Work"
          session_type := "work" }]) ∧
     (("2026-10"), (1500 : Int)).1 ∈ months_present (Option.none)
      ([{ start_time := "2026-10-10 09:00:00"
          end_time := "2026-10-10 09:25:00"
          duration := 1500
          tag := "Work"
          session_type := "work" }])) :=
  (monthly_sorted_and_capped (Option.none)
    ([{ start_time := "2026-10-10 09:00:00"
        end_time := "2026-10-10 09:25:00"
        duration := 1500
        tag := "Work"
        session_type := "work" }])).2.2 (("2026-10"), (1500 : Int)) (by decide)

/-- C10: in every state reachable from the initial one, a running timer has an
open session (`session_start` is present); consequently a completing tick
always finds the session open and hands a record to the database — the
`session_start.is_none()` branch of complete_session is dead on reachable
states. -/
theorem running_session_open :
    ∀ s : App, Reachable s →
      (s.timer_running = true → s.session_start.isSome = true) ∧
      (∀ (dbOk : Bool) (now : Nat), s.timer_running = true → s.remaining_seconds = 1 →
        ((s.tick dbOk now).2).isSome = true) := by
  have key : ∀ s : App, Reachable s → s.timer_running = true → s.session_start.isSome = true := by
    intro s h
    induction h with
    | init wd bd tags =>
      intro hc
      simp [App.new] at hc
    | @toggle s now h ih =>
      intro hrc
      by_cases hr : s.timer_running = true
      · simp [App.toggle_timer, hr] at hrc
      · cases hss : s.session_start <;> simp [App.toggle_timer, hr, hss]
    | @reset s h ih =>
      intro hrc
      simp [App.reset_timer] at hrc
    | @tick s dbOk now h ih =>
      intro hrc
      by_cases hc : s.timer_running = true ∧ 0 < s.remaining_seconds
      · by_cases hz : s.remaining_seconds - 1 = 0
        · exfalso
          cases hss : s.session_start <;>
            simp [App.tick, hc, hz, App.complete_session, hss] at hrc
        · have hfields : (s.tick dbOk now).1.session_start = s.session_start ∧
              (s.tick dbOk now).1.timer_running = s.timer_running := by
            simp [App.tick, hc, hz]
          rw [hfields.1]
          exact ih (hfields.2 ▸ hrc)
      · have hts : (s.tick dbOk now).1 = s := by simp [App.tick, hc]
        rw [hts] at hrc ⊢
        exact ih hrc
    | @adjust_work s delta h ih =>
      intro hrc
      have hfields : (s.adjust_work_duration delta).session_start = s.session_start ∧
          (s.adjust_work_duration delta).timer_running = s.timer_running := by
        simp [App.adjust_work_duration, apply_ite App.session_start,
              apply_ite App.timer_running]
      rw [hfields.1]
      exact ih (hfields.2 ▸ hrc)
    | @adjust_break s delta h ih =>
      intro hrc
      have hfields : (s.adjust_break_duration delta).session_start = s.session_start ∧
          (s.adjust_break_duration delta).timer_running = s.timer_running := by
        simp [App.adjust_break_duration, apply_ite App.session_start,
              apply_ite App.timer_running]
      rw [hfields.1]
      exact ih (hfields.2 ▸ hrc)
  intro s h
  refine ⟨key s h, ?_⟩
  intro dbOk now hrun hrem
  obtain ⟨t, ht⟩ := Option.isSome_iff_exists.mp (key s h hrun)
  simp [App.tick, hrun, hrem, App.complete_session, ht]

/-- Witness for C10 at the concrete state reached by starting the fresh timer. -/
theorem running_session_open_witness :
    (((App.new 1500 300 ([])).toggle_timer 3).session_start).isSome = true :=
  (running_session_open ((App.new 1500 300 ([])).toggle_timer 3)
    (Reachable.toggle 3 (Reachable.init 1500 300 ([])))).1 (by decide)

theorem ratio_lt_quarter (m M : Int) (hM : 0 < M) :
    ((m : ℚ) / (M : ℚ) < 1/4) ↔ 4 * m < M := by
  rw [div_lt_iff₀ (by exact_mod_cast hM)]
  constructor
  · intro h
    have h2 : (4 * m : ℚ) < M := by linarith
    exact_mod_cast h2
  · intro h
    have h2 : (4 * m : ℚ) < M := by exact_mod_cast h
    linarith

theorem ratio_lt_half (m M : Int) (hM : 0 < M) :
    ((m : ℚ) / (M : ℚ) < 1/2) ↔ 2 * m < M := by
  rw [div_lt_iff₀ (by exact_mod_cast hM)]
  constructor
  · intro h
    have h2 : (2 * m : ℚ) < M := by linarith
    exact_mod_cast h2
  · intro h
    have h2 : (2 * m : ℚ) < M := by exact_mod_cast h
    linarith

theorem ratio_lt_three_quarters (m M : Int) (hM : 0 < M) :
    ((m : ℚ) / (M : ℚ) < 3/4) ↔ 4 * m < 3 * M := by
  rw [div_lt_iff₀ (by exact_mod_cast hM)]
  constructor
  · intro h
    have h2 : (4 * m : ℚ) < 3 * M := by linarith
    exact_mod_cast h2
  · intro h
    have h2 : (4 * m : ℚ) < 3 * M := by exact_mod_cast h
    linarith

theorem foldl_max_of_nonneg : ∀ (l : List Int) (a : Int), 0 ≤ a → (∀ v ∈ l, 0 ≤ v) →
    l.foldl max a = max a (l.foldr max 0) := by
  intro l
  induction l with
  | nil =>
    intro a ha _
    simp [max_eq_left ha]
  | cons x xs ih =>
    intro a ha hnn
    simp only [List.foldl_cons, List.foldr_cons]
    rw [ih (max a x) (le_trans ha (le_max_left a x))
        (fun v hv => hnn v (List.mem_cons_of_mem x hv)),
        max_assoc]

/-- C9 counterexample: with no day in the 180-day window carrying any recorded
total, the code's max_minutes defaults to 60 (`unwrap_or(60)`), while the
spec's formula max(1, max over all days of minutes) gives max(1, 0) = 1. -/
theorem heatmap_max_minutes_counterexample :
    heatmap_max_minutes ([]) = 60 ∧ spec_max_minutes ([]) = 1 ∧
    ¬ heatmap_max_minutes ([]) = spec_max_minutes ([]) := by
  decide

/-- C9 corrected: when at least one day in the window has a recorded total
(totals are the nonnegative per-day sums), max_minutes agrees with the spec's
max(1, max over days of minutes); with no recorded data at all the code uses
60 instead of the spec's 1. The tier classification is exactly as claimed:
tier none iff zero minutes, otherwise low / medium / high / max by the ratio
minutes / max_minutes against the breakpoints 1/4, 1/2, 3/4. In particular a
lone 120-minute (7200 s) day gives max_minutes = 120, classifies as max, and
zero-minute days classify as none. -/
theorem heatmap_tiers_amended :
    (∀ totals : List Int, totals ≠ [] → (∀ v ∈ totals, 0 ≤ v) →
       heatmap_max_minutes totals = spec_max_minutes totals) ∧
    (∀ minutes max_minutes : Int, 0 < max_minutes →
       ((get_intensity_char minutes max_minutes = IntensityTier.none ↔ minutes = 0) ∧
        (minutes ≠ 0 →
          ((get_intensity_char minutes max_minutes = IntensityTier.low ↔
             (minutes : ℚ) / (max_minutes : ℚ) < 1/4) ∧
           (get_intensity_char minutes max_minutes = IntensityTier.medium ↔
             (1/4 ≤ (minutes : ℚ) / (max_minutes : ℚ) ∧
              (minutes : ℚ) / (max_minutes : ℚ) < 1/2)) ∧
           (get_intensity_char minutes max_minutes = IntensityTier.high ↔
             (1/2 ≤ (minutes : ℚ) / (max_minutes : ℚ) ∧
              (minutes : ℚ) / (max_minutes : ℚ) < 3/4)) ∧
           (get_intensity_char minutes max_minutes = IntensityTier.max ↔
             3/4 ≤ (minutes : ℚ) / (max_minutes : ℚ)))))) ∧
    heatmap_max_minutes ([7200]) = 120 ∧
    get_intensity_char 120 120 = IntensityTier.max ∧
    get_intensity_char 0 120 = IntensityTier.none := by
  refine ⟨?_, ?_, by decide, by decide, by decide⟩
  · intro totals hne hnn
    have hmapnn : ∀ u ∈ totals.map (fun v => Int.tdiv v 60), 0 ≤ u := by
      intro u hu
      obtain ⟨v, hv, rfl⟩ := List.mem_map.mp hu
      exact Int.tdiv_nonneg (hnn v hv) (by norm_num)
    cases hl : totals.map (fun v => Int.tdiv v 60) with
    | nil => exact absurd (List.map_eq_nil_iff.mp hl) hne
    | cons x xs =>
      rw [hl] at hmapnn
      have hx : (0:Int) ≤ x := hmapnn x (by simp)
      have hxs : ∀ v ∈ xs, (0:Int) ≤ v := fun v hv => hmapnn v (by simp [hv])
      simp only [heatmap_max_minutes, spec_max_minutes, hl]
      have hmax : ((x :: xs).max?) = some (xs.foldl max x) := rfl
      rw [hmax]
      simp only [Option.getD_some, List.foldr_cons]
      rw [foldl_max_of_nonneg xs x hx hxs, max_comm]
  · intro m M hM
    have hq := ratio_lt_quarter m M hM
    have hh := ratio_lt_half m M hM
    have h3 := ratio_lt_three_quarters m M hM
    have hq2 : ((1:ℚ)/4 ≤ (m : ℚ) / (M : ℚ)) ↔ ¬ (4 * m < M) := by
      rw [← hq, not_lt]
    have hh2 : ((1:ℚ)/2 ≤ (m : ℚ) / (M : ℚ)) ↔ ¬ (2 * m < M) := by
      rw [← hh, not_lt]
    have h32 : ((3:ℚ)/4 ≤ (m : ℚ) / (M : ℚ)) ↔ ¬ (4 * m < 3 * M) := by
      rw [← h3, not_lt]
    constructor
    · by_cases hm : m = 0
      · simp [get_intensity_char, hm]
      · have e0 : get_intensity_char m M =
            (if 4 * m < M then IntensityTier.low
             else if 2 * m < M then IntensityTier.medium
             else if 4 * m < 3 * M then IntensityTier.high
             else IntensityTier.max) := by
          simp [get_intensity_char, hm]
        rw [e0]
        constructor
        · intro hcontra
          exfalso
          by_cases c1 : 4 * m < M <;> by_cases c2 : 2 * m < M <;>
            by_cases c3 : 4 * m < 3 * M <;> simp [c1, c2, c3] at hcontra
        · intro h0
          exact absurd h0 hm
    · intro hm
      have e : get_intensity_char m M =
          (if 4 * m < M then IntensityTier.low
           else if 2 * m < M then IntensityTier.medium
           else if 4 * m < 3 * M then IntensityTier.high
           else IntensityTier.max) := by
        simp [get_intensity_char, hm]
      rw [e, hq, hh, h3, hq2, hh2, h32]
      by_cases c1 : 4 * m < M <;> by_cases c2 : 2 * m < M <;>
        by_cases c3 : 4 * m < 3 * M <;>
        simp [c1, c2, c3] <;> omega

/-- Witness for the corrected C9 at a concrete singleton data set. -/
theorem heatmap_tiers_amended_witness :
    heatmap_max_minutes ([7200]) = spec_max_minutes ([7200]) :=
  heatmap_tiers_amended.1 ([7200]) (by decide) (by decide)

end PomodoroPlusPlus
